import Mathlib

/-!
Shallow embedding of the dbp2p document store (Go), covering:

* the JSON-like document values (`Value`, with association-list objects),
* the in-memory store, per-document files and write-ahead log
  (`DBState`, `createDocument`, `updateDocument`, `deleteDocument`,
  `replayWal` — from `pkg/db`'s `Database`, `PersistenceManager`,
  `TransactionLogger.ReplayTransactions`),
* the query engine (`matchesQueryCondition`, `matchesCondition`,
  `sortDocuments`, `paginate`, `executeQuery` — from `pkg/db/query.go`),
* the secondary indexes (`Index.addDocument` — from `pkg/db/index.go`),
* the replication paths (`listenStep` — from `DBSync.listenForUpdates`;
  `handleSyncDoc` — from `SyncManager.handleSyncResponse`).

Modelling conventions: Go wall-clock timestamps are `Int` (Unix
nanoseconds; `time.After` is `<`); machine `int` values are `Int`;
fallible Go calls return `Option`/`Except`; a Go panic is `Option.none`;
`regexp.MatchString` (an external library call) is an oracle parameter
`rx : String → String → Bool`; the registered event callbacks of a
database are modelled by their number, and an emitted event is recorded
once per callback.  Document `data` only needs the JSON forms that
actually occur (`null`, `bool`, integral numbers, strings, arrays,
objects); `float64` and `time.Time` leaves are not needed by any claim
and are omitted from `Value`.
-/

namespace DBP2P

/-! ## JSON-like values (`map[string]interface{}` trees) -/

mutual

inductive Value where
  | vnull
  | vbool (b : Bool)
  | vint (n : Int)
  | vstr (s : String)
  | varr (xs : ValueList)
  | vobj (fields : Fields)

inductive ValueList where
  | nil
  | cons (v : Value) (rest : ValueList)

inductive Fields where
  | nil
  | cons (k : String) (v : Value) (rest : Fields)

end

/-- Go map read `m[k]` (first binding wins; our maps keep keys unique). -/
def lookupF : Fields → String → Option Value
  | .nil, _ => none
  | .cons k2 v rest, k => if k2 = k then some v else lookupF rest k

/-- Go map write `m[k] = v`: replace the binding if present, else append. -/
def insertF : Fields → String → Value → Fields
  | .nil, k, v => .cons k v .nil
  | .cons k2 v2 rest, k, v =>
      if k2 = k then .cons k v rest else .cons k2 v2 (insertF rest k v)

/-- `maps.Copy(dst, src)`: for every key of `src`, set `dst[k] = src[k]`
(the shallow merge used by `Database.UpdateDocument`). -/
def mapsCopy : Fields → Fields → Fields
  | dst, .nil => dst
  | dst, .cons k v rest => mapsCopy (insertF dst k v) rest

/-- The keys of a `Fields` map, in storage order. -/
def keysF : Fields → List String
  | .nil => []
  | .cons k _ rest => k :: keysF rest

mutual

/-- `fmt.Sprintf("%v", x)` on our value forms.  (One deliberate
simplification: Go's `fmt` prints map keys in sorted order, while this
prints `Fields` in storage order; no claim compares object values by
their `%v` string, and concrete objects below keep their keys sorted.) -/
def fmtV : Value → String
  | .vnull => "<nil>"
  | .vbool b => if b then "true" else "false"
  | .vint n => toString n
  | .vstr s => s
  | .varr xs => "[" ++ fmtVList xs ++ "]"
  | .vobj kvs => "map[" ++ fmtFields kvs ++ "]"

/-- `%v` of a slice body: elements separated by single spaces. -/
def fmtVList : ValueList → String
  | .nil => ""
  | .cons v .nil => fmtV v
  | .cons v rest => fmtV v ++ " " ++ fmtVList rest

/-- `%v` of a map body: `k:v` pairs separated by single spaces. -/
def fmtFields : Fields → String
  | .nil => ""
  | .cons k v .nil => k ++ ":" ++ fmtV v
  | .cons k v rest => k ++ ":" ++ fmtV v ++ " " ++ fmtFields rest

end

/-- `reflect.TypeOf(a) == reflect.TypeOf(b)` on our value forms. -/
def sameType : Value → Value → Bool
  | .vnull, .vnull => true
  | .vbool _, .vbool _ => true
  | .vint _, .vint _ => true
  | .vstr _, .vstr _ => true
  | .varr _, .varr _ => true
  | .vobj _, .vobj _ => true
  | _, _ => false

/-- `getTypeName` from `pkg/db/query.go`. -/
def getTypeName : Value → String
  | .vnull => "null"
  | .vstr _ => "string"
  | .vint _ => "integer"
  | .vbool _ => "boolean"
  | .varr _ => "array"
  | .vobj _ => "object"

/-- `strings.Compare`: -1, 0 or 1. -/
def strCompare (a b : String) : Int :=
  if a < b then -1 else if b < a then 1 else 0

/-- `compareValues` from `pkg/db/query.go`: values of different dynamic
types compare by their `%v` strings; same-typed strings, ints and bools
compare directly; remaining same-typed forms fall back to `%v` strings. -/
def compareValues (a b : Value) : Int :=
  if sameType a b = false then strCompare (fmtV a) (fmtV b)
  else
    match a, b with
    | .vstr x, .vstr y => strCompare x y
    | .vint x, .vint y => if x < y then -1 else if x > y then 1 else 0
    | .vbool x, .vbool y =>
        if x = false ∧ y = true then -1
        else if x = true ∧ y = false then 1 else 0
    | x, y => strCompare (fmtV x) (fmtV y)

/-! ## Documents and the store state -/

/-- `db.Document` (`ID`, `Collection`, `Data`, `CreatedAt`, `UpdatedAt`). -/
structure Document where
  id : String
  collection : String
  data : Fields
  createdAt : Int
  updatedAt : Int

instance : Inhabited Document := ⟨⟨"", "", .nil, 0, 0⟩⟩

/-- Go map read on a string-keyed map modelled as an association list. -/
def alLookup {β : Type} : List (String × β) → String → Option β
  | [], _ => none
  | (k2, v) :: rest, k => if k2 = k then some v else alLookup rest k

/-- Go map write: replace the binding if the key is present, else append. -/
def alInsert {β : Type} : List (String × β) → String → β → List (String × β)
  | [], k, v => [(k, v)]
  | (k2, v2) :: rest, k, v =>
      if k2 = k then (k, v) :: rest else (k2, v2) :: alInsert rest k v

/-- Go `delete(m, k)`. -/
def alErase {β : Type} : List (String × β) → String → List (String × β)
  | [], _ => []
  | (k2, v2) :: rest, k =>
      if k2 = k then alErase rest k else (k2, v2) :: alErase rest k

/-- A WAL line (`Transaction`): `create`/`update` carry the full document,
`delete` carries the document id. -/
inductive WalEntry where
  | create (doc : Document)
  | update (doc : Document)
  | delete (docId : String)

/-- The persistent and in-memory state of one node's database:
`documents` map, per-document files (keyed by document id) and the
append-only transaction log. -/
structure DBState where
  mem : List (String × Document)
  files : List (String × Document)
  wal : List WalEntry

/-- A freshly created database over an empty `data_dir`. -/
def emptyDB : DBState := ⟨[], [], []⟩

/-! ## Query engine (`pkg/db/query.go`) -/

/-- The `QueryOperator` constants. -/
inductive QueryOperator where
  | OperatorEQ
  | OperatorNE
  | OperatorGT
  | OperatorGTE
  | OperatorLT
  | OperatorLTE
  | OperatorIN
  | OperatorNIN
  | OperatorREGEX
  | OperatorEXISTS
  | OperatorTYPE
  | OperatorCONTAINS
  | OperatorSTARTSWITH
  | OperatorENDSWITH
deriving DecidableEq

/-- The `LogicalOperator` constants. -/
inductive LogicalOperator where
  | LogicalAND
  | LogicalOR
  | LogicalNOT
deriving DecidableEq

/-- The `SortDirection` constants. -/
inductive SortDirection where
  | SortAscending
  | SortDescending
deriving DecidableEq

/-- `QueryCondition{Field, Operator, Value}`. -/
structure QueryCondition where
  field : String
  operator : QueryOperator
  value : Value

mutual

/-- A condition tree: a `QueryCondition` leaf or a `LogicalCondition`
(this is the typed shape `matchesCondition` switches on; the raw
`map[string]interface{}` shape is re-wrapped into these two forms). -/
inductive Condition where
  | query (c : QueryCondition)
  | logical (op : LogicalOperator) (conds : CondList)

inductive CondList where
  | nil
  | cons (c : Condition) (rest : CondList)

end

/-- `SortOption{Field, Direction}`. -/
structure SortOption where
  field : String
  direction : SortDirection

/-- `QueryOptions{Skip, Limit, Sort}` (Go `int`s as `Int`). -/
structure QueryOptions where
  skip : Int
  limit : Int
  sort : List SortOption

/-- `Query{Collection, Condition, Options}`; a `nil` Go condition is
`none`. -/
structure Query where
  collection : String
  condition : Option Condition
  options : QueryOptions

/-- `strings.Split` on a single-character separator, over the character
list (splitting an empty string yields `[""]`, as in Go). -/
def splitChars (sep : Char) : List Char → List (List Char)
  | [] => [[]]
  | c :: rest =>
      let r := splitChars sep rest
      if c = sep then [] :: r
      else
        match r with
        | [] => [[c]]
        | g :: gs => (c :: g) :: gs

/-- `strings.Split(field, ".")`. -/
def splitOnDot (field : String) : List String :=
  (splitChars '.' field.data).map (fun cs => String.mk cs)

/-- The walk of `getNestedFieldValue` over the already-split path parts:
the last part is looked up, intermediate parts must resolve to nested
objects; any failure yields `none` ("campo no encontrado"). -/
def getPath : Fields → List String → Option Value
  | _, [] => none
  | d, [p] => lookupF d p
  | d, p :: q :: rest =>
      match lookupF d p with
      | none => none
      | some (.vobj m) => getPath m (q :: rest)
      | some _ => none

/-- `getNestedFieldValue` from `pkg/db/query.go`: dotted-path lookup. -/
def getNestedFieldValue (data : Fields) (field : String) : Option Value :=
  getPath data (splitOnDot field)

/-- Membership of a value in a `[]interface{}` under `compareValues`. -/
def vlContains (fv : Value) : ValueList → Bool
  | .nil => false
  | .cons v rest => if compareValues fv v = 0 then true else vlContains fv rest

/-- `needle` occurs as a contiguous sublist (`strings.Contains`). -/
def listIsInfix (needle : List Char) : List Char → Bool
  | [] => needle.isEmpty
  | c :: rest => needle.isPrefixOf (c :: rest) || listIsInfix needle rest

/-- `strings.Contains`. -/
def strContains (s sub : String) : Bool := listIsInfix sub.data s.data

/-- `strings.HasPrefix`. -/
def strHasPrefix (s pre : String) : Bool := pre.data.isPrefixOf s.data

/-- `strings.HasSuffix`. -/
def strHasSuffix (s suf : String) : Bool :=
  suf.data.reverse.isPrefixOf s.data.reverse

/-- The operator switch at the end of `matchesQueryCondition`, reached
only with a resolved field value and an operator other than `exists`
(the `exists` case and the absent-field case are handled before it);
the switch's default returns `false`. -/
def matchOperator (rx : String → String → Bool) (fieldValue : Value)
    (c : QueryCondition) : Bool :=
  match c.operator with
  | .OperatorEQ => compareValues fieldValue c.value = 0
  | .OperatorNE => compareValues fieldValue c.value ≠ 0
  | .OperatorGT => decide (compareValues fieldValue c.value > 0)
  | .OperatorGTE => decide (compareValues fieldValue c.value ≥ 0)
  | .OperatorLT => decide (compareValues fieldValue c.value < 0)
  | .OperatorLTE => decide (compareValues fieldValue c.value ≤ 0)
  | .OperatorIN =>
      match c.value with
      | .varr vs => vlContains fieldValue vs
      | _ => false
  | .OperatorNIN =>
      match c.value with
      | .varr vs => !vlContains fieldValue vs
      | _ => true
  | .OperatorREGEX =>
      match fieldValue, c.value with
      | .vstr s, .vstr pattern => rx pattern s
      | _, _ => false
  | .OperatorTYPE =>
      match c.value with
      | .vstr typeName => getTypeName fieldValue = typeName
      | _ => false
  | .OperatorCONTAINS =>
      match fieldValue, c.value with
      | .vstr s, .vstr sub => strContains s sub
      | _, _ => false
  | .OperatorSTARTSWITH =>
      match fieldValue, c.value with
      | .vstr s, .vstr pre => strHasPrefix s pre
      | _, _ => false
  | .OperatorENDSWITH =>
      match fieldValue, c.value with
      | .vstr s, .vstr suf => strHasSuffix s suf
      | _, _ => false
  | .OperatorEXISTS => false

/-- `matchesQueryCondition`: `none` models the Go panic raised by the
unchecked assertion `condition.Value.(bool)` in the `exists` branches. -/
def matchesQueryCondition (rx : String → String → Bool) (data : Fields)
    (c : QueryCondition) : Option Bool :=
  match getNestedFieldValue data c.field with
  | none =>
      if c.operator = .OperatorEXISTS then
        match c.value with
        | .vbool b => some (b == false)
        | _ => none
      else some false
  | some fieldValue =>
      if c.operator = .OperatorEXISTS then
        match c.value with
        | .vbool b => some (b == true)
        | _ => none
      else some (matchOperator rx fieldValue c)

mutual

/-- `matchesCondition` on the typed condition shapes; a panic in a leaf
propagates as `none`. -/
def matchesCondition (rx : String → String → Bool) (data : Fields) :
    Condition → Option Bool
  | .query c => matchesQueryCondition rx data c
  | .logical op conds => matchesLogicalCondition rx data op conds

/-- `matchesLogicalCondition`: `and` stops at the first `false`, `or`
stops at the first `true`, `not` uses the first condition and returns
`false` when the list is empty. -/
def matchesLogicalCondition (rx : String → String → Bool) (data : Fields) :
    LogicalOperator → CondList → Option Bool
  | .LogicalAND, .nil => some true
  | .LogicalAND, .cons c rest =>
      match matchesCondition rx data c with
      | none => none
      | some false => some false
      | some true => matchesLogicalCondition rx data .LogicalAND rest
  | .LogicalOR, .nil => some false
  | .LogicalOR, .cons c rest =>
      match matchesCondition rx data c with
      | none => none
      | some true => some true
      | some false => matchesLogicalCondition rx data .LogicalOR rest
  | .LogicalNOT, .nil => some false
  | .LogicalNOT, .cons c _ =>
      match matchesCondition rx data c with
      | none => none
      | some b => some (!b)

end

/-- Swap two slice positions (out-of-range indices leave the list as is;
the loops below only use in-range indices). -/
def listSwap (docs : List Document) (i j : Nat) : List Document :=
  let di := docs.getD i default
  let dj := docs.getD j default
  (docs.set i dj).set j di

/-- One inner-loop comparison of `sortDocuments` between positions `i`
and `j`: a document whose sort field is missing moves to the end, then
out-of-order pairs are swapped. -/
def compareAndSwap (field : String) (dir : SortDirection)
    (docs : List Document) (i j : Nat) : List Document :=
  let di := docs.getD i default
  let dj := docs.getD j default
  match getNestedFieldValue di.data field, getNestedFieldValue dj.data field with
  | none, some _ => listSwap docs i j
  | none, none => docs
  | some _, none => docs
  | some vi, some vj =>
      let cmp := compareValues vi vj
      if (dir = .SortAscending ∧ cmp > 0) ∨ (dir = .SortDescending ∧ cmp < 0)
      then listSwap docs i j else docs

/-- The inner `for j := i+1; j < len(docs); j++` loop (fuel-counted;
the fuel passed by the outer loop always covers the whole range). -/
def innerPass (field : String) (dir : SortDirection) (i : Nat) :
    Nat → Nat → List Document → List Document
  | 0, _, docs => docs
  | fuel + 1, j, docs =>
      if j < docs.length then
        innerPass field dir i fuel (j + 1) (compareAndSwap field dir docs i j)
      else docs

/-- The outer `for i := 0; i < len(docs)-1; i++` loop. -/
def outerLoop (field : String) (dir : SortDirection) :
    Nat → Nat → List Document → List Document
  | 0, _, docs => docs
  | fuel + 1, i, docs =>
      if i + 1 < docs.length then
        outerLoop field dir fuel (i + 1)
          (innerPass field dir i docs.length (i + 1) docs)
      else docs

/-- `sortDocuments`: only the first sort option is used; the in-place
exchange sort swaps `docs[i]` and `docs[j]` whenever they compare out of
order for `i < j`. -/
def sortDocuments (sortOpts : List SortOption) (docs : List Document) :
    List Document :=
  match sortOpts with
  | [] => docs
  | sortOption :: _ =>
      outerLoop sortOption.field sortOption.direction docs.length 0 docs

/-- The pagination tail of `Query.Execute`: `results = results[skip:]`
only when `0 < skip < len(results)`, then `results = results[:limit]`
only when `0 < limit < len(results)`. -/
def paginate (skip limit : Int) (results : List Document) : List Document :=
  let r1 :=
    if skip > 0 ∧ skip < (results.length : Int) then results.drop skip.toNat
    else results
  if limit > 0 ∧ limit < (r1.length : Int) then r1.take limit.toNat else r1

/-- The filtering loop of `Query.Execute` over the collection scan; a
`nil` condition matches nothing (the type switch falls through), and a
panic in the matcher propagates. -/
def filterDocs (rx : String → String → Bool) (cond : Option Condition) :
    List Document → Option (List Document)
  | [] => some []
  | d :: rest =>
      match (match cond with
             | none => some false
             | some c => matchesCondition rx d.data c) with
      | none => none
      | some true => (filterDocs rx cond rest).map (fun tail => d :: tail)
      | some false => filterDocs rx cond rest

/-- `Query.Execute` given the collection scan `docs`: filter, then sort
when sort options are present, then skip/limit. -/
def executeQuery (rx : String → String → Bool) (q : Query)
    (docs : List Document) : Option (List Document) :=
  (filterDocs rx q.condition docs).map (fun results =>
    let sorted :=
      if q.options.sort.length > 0 then sortDocuments q.options.sort results
      else results
    paginate q.options.skip q.options.limit sorted)

/-! ## Database mutators (`Database` in `pkg/db`), with their event and
gossip fan-out recorded as effects -/

/-- The `Operation` constants of the gossip layer. -/
inductive Operation where
  | OperationCreate
  | OperationUpdate
  | OperationDelete
deriving DecidableEq

/-- A `DBMessage` gossip envelope (`operation`, optional `document`,
`document_id`). -/
structure DBMessage where
  operation : Operation
  document : Option Document
  documentId : String

/-- One delivery of `(eventType, collection, documentID, document)` to a
registered event callback. -/
structure DBEvent where
  eventType : String
  collection : String
  documentId : String
  document : Document

/-- What a mutator emitted: gossip publications and event-callback
deliveries. -/
structure Effects where
  published : List DBMessage
  events : List DBEvent

/-- No publication and no callback delivery. -/
def noEffects : Effects := ⟨[], []⟩

/-- `triggerEvent`: one delivery per registered callback (callbacks are
modelled by their number). -/
def triggerEvent (nCallbacks : Nat) (ev : DBEvent) : List DBEvent :=
  List.replicate nCallbacks ev

/-- The Go `(*Document, error)` return pair. -/
structure CreateResult where
  doc? : Option Document
  err? : Option String

/-- `Database.CreateDocument`: build the document with both timestamps
`now`, insert it into the in-memory map, then persist (file write plus
WAL append — `SaveDocument`); a persistence failure returns
`(nil, error)` at once, leaving the in-memory insert in place and
skipping gossip and events; on success, publish on the gossip topic when
sync is enabled and fire the `create` event.  The fresh UUID is the
`newId` argument; `persistOk` is the outcome of `SaveDocument` when
persistence is enabled. -/
def createDocument (s : DBState) (newId collection : String) (data : Fields)
    (now : Int) (persistenceEnabled persistOk syncEnabled : Bool)
    (nCallbacks : Nat) : CreateResult × DBState × Effects :=
  let doc : Document := ⟨newId, collection, data, now, now⟩
  let memInserted := alInsert s.mem newId doc
  if persistenceEnabled ∧ persistOk = false then
    (⟨none, some "error al persistir documento"⟩,
     ⟨memInserted, s.files, s.wal⟩, noEffects)
  else
    let s2 : DBState :=
      if persistenceEnabled then
        ⟨memInserted, alInsert s.files newId doc, s.wal ++ [WalEntry.create doc]⟩
      else ⟨memInserted, s.files, s.wal⟩
    (⟨some doc, none⟩, s2,
     ⟨(if syncEnabled then [⟨.OperationCreate, some doc, ""⟩] else []),
      triggerEvent nCallbacks ⟨"create", collection, newId, doc⟩⟩)

/-- `Database.UpdateDocument`: look the id up (`NotFound` when absent),
merge the patch into the document's data with `maps.Copy`, stamp
`updated_at`, then persist (`PersistenceManager.UpdateDocument`, which
fails when the per-document file is missing); the in-memory mutation
happens before persistence, so it survives a persistence failure even
though `(nil, error)` is returned. -/
def updateDocument (s : DBState) (id : String) (data : Fields) (now : Int)
    (persistenceEnabled persistOk syncEnabled : Bool) (nCallbacks : Nat) :
    CreateResult × DBState × Effects :=
  match alLookup s.mem id with
  | none => (⟨none, some "documento no encontrado"⟩, s, noEffects)
  | some doc =>
      let doc2 : Document :=
        { doc with data := mapsCopy doc.data data, updatedAt := now }
      let memUpdated := alInsert s.mem id doc2
      let okEffects : Effects :=
        ⟨(if syncEnabled then [⟨.OperationUpdate, some doc2, ""⟩] else []),
         triggerEvent nCallbacks ⟨"update", doc.collection, id, doc2⟩⟩
      if persistenceEnabled then
        if persistOk ∧ (alLookup s.files id).isSome then
          (⟨some doc2, none⟩,
           ⟨memUpdated, alInsert s.files id doc2, s.wal ++ [WalEntry.update doc2]⟩,
           okEffects)
        else
          (⟨none, some "error al persistir actualización"⟩,
           ⟨memUpdated, s.files, s.wal⟩, noEffects)
      else (⟨some doc2, none⟩, ⟨memUpdated, s.files, s.wal⟩, okEffects)

/-- `Database.DeleteDocument`: look the id up (`NotFound` when absent),
remove it from the in-memory map, persist the removal (file delete plus
WAL `delete` line), and fire the `delete` event with the saved copy. -/
def deleteDocument (s : DBState) (id : String)
    (persistenceEnabled persistOk syncEnabled : Bool) (nCallbacks : Nat) :
    Option String × DBState × Effects :=
  match alLookup s.mem id with
  | none => (some "documento no encontrado", s, noEffects)
  | some doc =>
      let memErased := alErase s.mem id
      let okEffects : Effects :=
        ⟨(if syncEnabled then [⟨.OperationDelete, none, id⟩] else []),
         triggerEvent nCallbacks ⟨"delete", doc.collection, id, doc⟩⟩
      if persistenceEnabled then
        if persistOk ∧ (alLookup s.files id).isSome then
          (none, ⟨memErased, alErase s.files id, s.wal ++ [WalEntry.delete id]⟩,
           okEffects)
        else
          (some "error al persistir eliminación", ⟨memErased, s.files, s.wal⟩,
           noEffects)
      else (none, ⟨memErased, s.files, s.wal⟩, okEffects)

/-- `Database.GetAllDocuments`: the documents of one collection. -/
def getAllDocuments (s : DBState) (collection : String) : List Document :=
  (s.mem.map Prod.snd).filter (fun d => d.collection = collection)

/-! ## Startup recovery (`NewDatabaseWithPersistence` +
`ReplayTransactions`) -/

/-- One step of `ReplayTransactions`: `create`/`update` store the logged
document under its id, `delete` removes the id. -/
def applyEntry (m : List (String × Document)) : WalEntry → List (String × Document)
  | .create doc => alInsert m doc.id doc
  | .update doc => alInsert m doc.id doc
  | .delete docId => alErase m docId

/-- `ReplayTransactions`: replay every WAL entry in order. -/
def replayWal (wal : List WalEntry) (m : List (String × Document)) :
    List (String × Document) :=
  wal.foldl applyEntry m

/-- `NewDatabaseWithPersistence` on an existing `data_dir`: load the
per-document files (`LoadAllDocuments`, a map keyed by document id),
then replay the whole transaction log over it. -/
def loadAndReplay (s : DBState) : List (String × Document) :=
  replayWal s.wal s.files

/-- A local CRUD request (the generated UUID and the wall clock are
arguments). -/
inductive LocalOp where
  | createOp (id collection : String) (data : Fields) (now : Int)
  | updateOp (id : String) (patch : Fields) (now : Int)
  | deleteOp (id : String)

/-- Run one local operation against a persistence-enabled database whose
disk writes succeed (an op whose precondition fails — unknown id —
leaves the state unchanged, as the code returns before mutating). -/
def applyOp (s : DBState) : LocalOp → DBState
  | .createOp id collection data now =>
      (createDocument s id collection data now true true false 0).2.1
  | .updateOp id patch now =>
      (updateDocument s id patch now true true false 0).2.1
  | .deleteOp id => (deleteDocument s id true true false 0).2.1

/-- Run a sequence of local operations. -/
def runOps (ops : List LocalOp) (s : DBState) : DBState :=
  ops.foldl applyOp s

/-! ## Secondary indexes (`pkg/db/index.go`) -/

/-- The `IndexType` constants. -/
inductive IndexType where
  | IndexTypeUnique
  | IndexTypeNonUnique
  | IndexTypeText
deriving DecidableEq

/-- `Index`: `Data` maps a computed key to the ids indexed under it. -/
structure Index where
  name : String
  collection : String
  fields : List String
  idxType : IndexType
  unique : Bool
  createdAt : Int
  updatedAt : Int
  data : List (String × List String)

/-- `NewIndex`: `Unique` is derived from the index type. -/
def mkIndex (name collection : String) (fields : List String)
    (indexType : IndexType) (now : Int) : Index :=
  ⟨name, collection, fields, indexType, indexType = .IndexTypeUnique,
   now, now, []⟩

/-- `getFieldValue` from `pkg/db/index.go` over the split path: a dotted
field recurses through nested objects (the reflection fallback for
non-map Go values never fires on JSON data and is a failure here). -/
def getFieldParts : Value → List String → Option Value
  | v, [f] =>
      match v with
      | .vobj m => lookupF m f
      | _ => none
  | v, f :: g :: rest =>
      match v with
      | .vobj m =>
          match lookupF m f with
          | none => none
          | some v2 => getFieldParts v2 (g :: rest)
      | _ => none
  | _, [] => none

/-- `getFieldValue(data, field)` (splitting on dots as `SplitN` does
recursively). -/
def getFieldValue (v : Value) (field : String) : Option Value :=
  getFieldParts v (splitOnDot field)

/-- One field's contribution to the index key: `_id` uses the document
id, otherwise `%v` of the field value. -/
def indexFieldKey (doc : Document) (field : String) : Option String :=
  if field = "_id" then some doc.id
  else (getFieldValue (.vobj doc.data) field).map fmtV

/-- Collect the per-field keys of a composite index (any missing field
fails). -/
def collectFieldKeys (doc : Document) : List String → Option (List String)
  | [] => some []
  | f :: rest =>
      match indexFieldKey doc f with
      | none => none
      | some s => (collectFieldKeys doc rest).map (fun tail => s :: tail)

/-- `Index.getIndexValue`: single-field indexes use the field key
directly, composite indexes join the keys with `|`. -/
def getIndexValue (idx : Index) (doc : Document) : Option String :=
  match idx.fields with
  | [] => none
  | [field] => indexFieldKey doc field
  | fields => (collectFieldKeys doc fields).map (String.intercalate "|")

/-- `Index.AddDocument`: compute the key; a unique index rejects a key
that already has ids; an id already present under the key is a no-op;
otherwise the id is appended under the key. -/
def Index.addDocument (idx : Index) (doc : Document) (now : Int) :
    Except String Index :=
  match getIndexValue idx doc with
  | none => .error "campo no encontrado"
  | some value =>
      if idx.unique ∧ ((alLookup idx.data value).getD []).length > 0 then
        .error ("violación de índice único: " ++ value)
      else
        let ids := (alLookup idx.data value).getD []
        if ids.contains doc.id then .ok idx
        else
          .ok { idx with data := alInsert idx.data value (ids ++ [doc.id]),
                         updatedAt := now }

/-! ## Replication: gossip inbound apply (`DBSync.listenForUpdates`) and
periodic-sync responses (`SyncManager.handleSyncResponse`) -/

/-- Processing of one non-self `DBMessage` by `listenForUpdates`: the
document store and the files are written directly (no timestamp
comparison), and neither the gossip topic nor the event callbacks are
touched — the `Effects` are empty in every branch because the code never
calls `Publish` or `triggerEvent` here.  `nCallbacks` is the number of
registered callbacks of the receiving database; the path ignores them.
Persistence errors in this path are logged and ignored, so the only
state-relevant failure is `UpdateDocument`/`DeleteDocument` finding no
per-document file. -/
def listenStep (s : DBState) (persistenceEnabled : Bool) (nCallbacks : Nat)
    (msg : DBMessage) : DBState × Effects :=
  match msg.operation, msg.document with
  | .OperationCreate, some doc =>
      let mem2 := alInsert s.mem doc.id doc
      if persistenceEnabled then
        (⟨mem2, alInsert s.files doc.id doc, s.wal ++ [WalEntry.create doc]⟩,
         noEffects)
      else (⟨mem2, s.files, s.wal⟩, noEffects)
  | .OperationUpdate, some doc =>
      let mem2 := alInsert s.mem doc.id doc
      if persistenceEnabled ∧ (alLookup s.files doc.id).isSome then
        (⟨mem2, alInsert s.files doc.id doc, s.wal ++ [WalEntry.update doc]⟩,
         noEffects)
      else (⟨mem2, s.files, s.wal⟩, noEffects)
  | .OperationDelete, _ =>
      if msg.documentId = "" then (s, noEffects)
      else
        match alLookup s.mem msg.documentId with
        | some _ =>
            let mem2 := alErase s.mem msg.documentId
            if persistenceEnabled ∧ (alLookup s.files msg.documentId).isSome then
              (⟨mem2, alErase s.files msg.documentId,
                s.wal ++ [WalEntry.delete msg.documentId]⟩, noEffects)
            else (⟨mem2, s.files, s.wal⟩, noEffects)
        | none => (⟨alErase s.mem msg.documentId, s.files, s.wal⟩, noEffects)
  | _, none => (s, noEffects)

/-- The conflict counters of `SyncStats`. -/
structure SyncStats where
  conflictsDetected : Nat
  conflictsResolved : Nat

/-- A `SyncManager` with its database. -/
structure SMState where
  db : DBState
  stats : SyncStats

/-- Processing of one received document by `handleSyncResponse`: when the
id exists locally, a strictly newer incoming `updated_at` is applied via
`Database.UpdateDocument` (hence merged, with `updated_at` set to the
local clock), otherwise the document is discarded and both conflict
counters are bumped; an unknown id is re-created via
`Database.CreateDocument` (fresh id `newId`, fresh timestamps). -/
def handleSyncDoc (st : SMState) (doc : Document) (now : Int)
    (newId : String) : SMState :=
  match alLookup st.db.mem doc.id with
  | some existingDoc =>
      if doc.updatedAt > existingDoc.updatedAt then
        { st with db := (updateDocument st.db doc.id doc.data now true true true 0).2.1 }
      else
        { st with stats := ⟨st.stats.conflictsDetected + 1,
                            st.stats.conflictsResolved + 1⟩ }
  | none =>
      { st with db := (createDocument st.db newId doc.collection doc.data now
                        true true true 0).2.1 }

/-! ## Replay bookkeeping for the restart theorem -/

/-- The document id a WAL entry is about. -/
def entryId : WalEntry → String
  | .create doc => doc.id
  | .update doc => doc.id
  | .delete docId => docId

/-- Whether some WAL entry mentions `id`. -/
def touched (wal : List WalEntry) (id : String) : Bool :=
  wal.any (fun e => entryId e == id)

/-- Every stored document sits under its own id (true of the live map,
and needed because replay keys entries by the logged document's id). -/
def Coherent (m : List (String × Document)) : Prop :=
  ∀ id d, alLookup m id = some d → d.id = id

/-- The run-time invariant tying the three persistence components
together: the files mirror the in-memory map, the map is coherent, and
replaying the WAL over any base map rewrites exactly the touched ids to
their in-memory values. -/
def DBInv (s : DBState) : Prop :=
  (∀ id, alLookup s.files id = alLookup s.mem id) ∧
  Coherent s.mem ∧
  ∀ (m : List (String × Document)) (id : String),
      alLookup (replayWal s.wal m) id =
        if touched s.wal id then alLookup s.mem id else alLookup m id

/-! ## Concrete instances used by counterexamples and witnesses -/

/-- A fixed regex oracle (no concrete claim exercises `regex`). -/
def rx0 : String → String → Bool := fun _ _ => false

/-- Local replica content for the replication claims. -/
def localDoc1 : Document :=
  ⟨"a", "users", .cons "name" (.vstr "local") .nil, 0, 10⟩

/-- A gossiped document older than `localDoc1` (same id, `updated_at`
5 < 10). -/
def incomingDoc1 : Document :=
  ⟨"a", "users", .cons "name" (.vstr "remote") .nil, 0, 5⟩

/-- A node currently holding `localDoc1`. -/
def s1 : DBState := ⟨[("a", localDoc1)], [("a", localDoc1)], []⟩

/-- The gossip envelope carrying `incomingDoc1` as an update. -/
def msg1 : DBMessage := ⟨.OperationUpdate, some incomingDoc1, ""⟩

/-- A sync manager over `s1` with zeroed counters. -/
def sm1 : SMState := ⟨s1, ⟨0, 0⟩⟩

/-- Document data with the indexed email value. -/
def dataEmail : Fields := .cons "email" (.vstr "a@x") .nil

/-- First inserted user. -/
def docU1 : Document := ⟨"u1", "users", dataEmail, 1, 1⟩

/-- Second inserted user, same email. -/
def docU2 : Document := ⟨"u2", "users", dataEmail, 2, 2⟩

/-- A unique index on `users.email` already holding `docU1`'s email. -/
def idxEmail : Index :=
  ⟨"users_email", "users", ["email"], .IndexTypeUnique, true, 0, 0,
   [("a@x", ["u1"])]⟩

/-- A pre-existing document used by the update witness. -/
def docAna : Document :=
  ⟨"a", "users",
   .cons "name" (.vstr "Ana") (.cons "age" (.vint 30) .nil), 3, 3⟩

/-- A database holding `docAna` with its file written. -/
def sAna : DBState := ⟨[("a", docAna)], [("a", docAna)], []⟩

/-- The patch `{"age": 31, "city": "Madrid"}`. -/
def patchAna : Fields := .cons "age" (.vint 31) (.cons "city" (.vstr "Madrid") .nil)

/-- Sort-field value 2 (ties in the sort counterexample). -/
def fieldsK2 : Fields := .cons "k" (.vint 2) .nil

/-- Sort-field value 1. -/
def fieldsK1 : Fields := .cons "k" (.vint 1) .nil

/-- First equal-key document (inserted first). -/
def dA8 : Document := ⟨"a", "users", fieldsK2, 0, 0⟩

/-- Second equal-key document (inserted second). -/
def dB8 : Document := ⟨"b", "users", fieldsK2, 0, 0⟩

/-- The smaller-key document, inserted last. -/
def dC8 : Document := ⟨"c", "users", fieldsK1, 0, 0⟩

/-- Ascending sort on field `k`. -/
def sOpt8 : SortOption := ⟨"k", .SortAscending⟩

/-- A query matching every document (nobody has field `zz`) with
`skip = 5` and `limit = 10`. -/
def q9 : Query :=
  ⟨"users", some (.query ⟨"zz", .OperatorEXISTS, .vbool false⟩), ⟨5, 10, []⟩⟩

/-- The `nin`-on-absent-field condition. -/
def cond7 : QueryCondition :=
  ⟨"x", .OperatorNIN, .varr (.cons (.vstr "v") .nil)⟩

/-- An `exists` condition with a proper boolean value. -/
def condW7 : QueryCondition := ⟨"x", .OperatorEXISTS, .vbool false⟩

/-- An `exists` condition whose value is not a boolean (the panicking
input). -/
def cond10 : QueryCondition := ⟨"x", .OperatorEXISTS, .vstr "yes"⟩

/-- An `exists` condition with a boolean value, for the totality
witness. -/
def condW10 : QueryCondition := ⟨"x", .OperatorEXISTS, .vbool true⟩

/-! ## Association-map laws -/

theorem alLookup_alInsert {β : Type} (m : List (String × β)) (k : String)
    (v : β) (k2 : String) :
    alLookup (alInsert m k v) k2 = if k = k2 then some v else alLookup m k2 := by
  induction m with
  | nil => simp [alInsert, alLookup]
  | cons kv rest ih =>
      obtain ⟨k3, v3⟩ := kv
      by_cases h3 : k3 = k
      · subst h3
        by_cases h2 : k3 = k2 <;> simp [alInsert, alLookup, h2]
      · by_cases h2 : k3 = k2
        · subst h2
          have hne : k ≠ k3 := fun h => h3 h.symm
          simp [alInsert, alLookup, h3, hne]
        · simp [alInsert, alLookup, h3, h2, ih]

theorem alLookup_alErase {β : Type} (m : List (String × β)) (k k2 : String) :
    alLookup (alErase m k) k2 = if k = k2 then none else alLookup m k2 := by
  induction m with
  | nil => simp [alErase, alLookup]
  | cons kv rest ih =>
      obtain ⟨k3, v3⟩ := kv
      by_cases h3 : k3 = k
      · subst h3
        by_cases h2 : k3 = k2
        · subst h2; simp [alErase, alLookup, ih]
        · simp [alErase, alLookup, h2, ih]
      · by_cases h2 : k3 = k2
        · subst h2
          have hne : k ≠ k3 := fun h => h3 h.symm
          simp [alErase, alLookup, h3, hne]
        · simp [alErase, alLookup, h3, h2, ih]

theorem lookupF_insertF :
    ∀ (d : Fields) (k : String) (v : Value) (k2 : String),
      lookupF (insertF d k v) k2 = if k = k2 then some v else lookupF d k2
  | .nil, k, v, k2 => by simp [insertF, lookupF]
  | .cons k3 v3 rest, k, v, k2 => by
      by_cases h3 : k3 = k
      · subst h3
        by_cases h2 : k3 = k2 <;> simp [insertF, lookupF, h2]
      · by_cases h2 : k3 = k2
        · subst h2
          have hne : k ≠ k3 := fun h => h3 h.symm
          simp [insertF, lookupF, h3, hne]
        · simp [insertF, lookupF, h3, h2, lookupF_insertF rest k v k2]

theorem lookupF_eq_none_of_not_mem :
    ∀ (d : Fields) (k : String), k ∉ keysF d → lookupF d k = none
  | .nil, _, _ => rfl
  | .cons k2 v rest, k, h => by
      simp only [keysF, List.mem_cons, not_or] at h
      have hne : k2 ≠ k := fun he => h.1 he.symm
      simp [lookupF, hne, lookupF_eq_none_of_not_mem rest k h.2]

theorem lookupF_mapsCopy :
    ∀ (src : Fields), (keysF src).Nodup → ∀ (dst : Fields) (k : String),
      lookupF (mapsCopy dst src) k =
        Option.orElse (lookupF src k) (fun _ => lookupF dst k)
  | .nil, _, dst, k => by simp [mapsCopy, lookupF, Option.orElse]
  | .cons k0 v0 rest, hnd, dst, k => by
      simp only [keysF, List.nodup_cons] at hnd
      have hrec := lookupF_mapsCopy rest hnd.2 (insertF dst k0 v0) k
      by_cases hk : k0 = k
      · subst hk
        have hrest : lookupF rest k0 = none :=
          lookupF_eq_none_of_not_mem rest k0 hnd.1
        simp [mapsCopy, lookupF, hrec, hrest, lookupF_insertF, Option.orElse]
      · simp [mapsCopy, lookupF, hrec, hk, lookupF_insertF, Option.orElse]

/-! ## Replay laws -/

theorem replayWal_append (w : List WalEntry) (e : WalEntry)
    (m : List (String × Document)) :
    replayWal (w ++ [e]) m = applyEntry (replayWal w m) e := by
  simp [replayWal, List.foldl_append]

theorem touched_append (w : List WalEntry) (e : WalEntry) (id : String) :
    touched (w ++ [e]) id = (touched w id || (entryId e == id)) := by
  simp [touched, List.any_append]

theorem dbInv_empty : DBInv emptyDB := by
  refine ⟨fun id => rfl, fun id d h => by simp [alLookup, emptyDB] at h, ?_⟩
  intro m id
  simp [replayWal, touched, emptyDB]

theorem replay_inv_upsert (wal : List WalEntry) (mem : List (String × Document))
    (hrp : ∀ m id, alLookup (replayWal wal m) id =
        if touched wal id then alLookup mem id else alLookup m id)
    (d : Document) (e : WalEntry) (hid : entryId e = d.id)
    (happ : ∀ m2, applyEntry m2 e = alInsert m2 d.id d) :
    ∀ m id, alLookup (replayWal (wal ++ [e]) m) id =
      if touched (wal ++ [e]) id then alLookup (alInsert mem d.id d) id
      else alLookup m id := by
  intro m id
  rw [replayWal_append, happ, alLookup_alInsert, touched_append, hid,
    alLookup_alInsert]
  by_cases hi : d.id = id
  · simp [hi]
  · have hb : (d.id == id) = false := by simp [hi]
    simp [hi, hb, hrp m id]

theorem replay_inv_erase (wal : List WalEntry) (mem : List (String × Document))
    (hrp : ∀ m id, alLookup (replayWal wal m) id =
        if touched wal id then alLookup mem id else alLookup m id)
    (k : String) :
    ∀ m id, alLookup (replayWal (wal ++ [WalEntry.delete k]) m) id =
      if touched (wal ++ [WalEntry.delete k]) id then alLookup (alErase mem k) id
      else alLookup m id := by
  intro m id
  rw [replayWal_append]
  show alLookup (alErase (replayWal wal m) k) id = _
  rw [alLookup_alErase, touched_append, alLookup_alErase]
  by_cases hi : k = id
  · simp [hi, entryId]
  · have hb : (entryId (WalEntry.delete k) == id) = false := by simp [entryId, hi]
    simp [hi, hb, hrp m id]

theorem dbInv_applyOp (s : DBState) (op : LocalOp) (h : DBInv s) :
    DBInv (applyOp s op) := by
  obtain ⟨hfm, hco, hrp⟩ := h
  cases op with
  | createOp id collection data now =>
      have hstate : applyOp s (.createOp id collection data now) =
          ⟨alInsert s.mem id ⟨id, collection, data, now, now⟩,
           alInsert s.files id ⟨id, collection, data, now, now⟩,
           s.wal ++ [WalEntry.create ⟨id, collection, data, now, now⟩]⟩ := by
        simp [applyOp, createDocument]
      rw [hstate]
      refine ⟨?_, ?_, ?_⟩
      · intro id2
        simp [alLookup_alInsert, hfm id2]
      · intro id2 d2 h2
        rw [alLookup_alInsert] at h2
        by_cases hi : id = id2
        · rw [if_pos hi] at h2
          injection h2 with h3
          rw [← h3]
          exact hi
        · rw [if_neg hi] at h2
          exact hco id2 d2 h2
      · exact replay_inv_upsert s.wal s.mem hrp ⟨id, collection, data, now, now⟩
          (WalEntry.create ⟨id, collection, data, now, now⟩) rfl (fun m2 => rfl)
  | updateOp id patch now =>
      cases hm : alLookup s.mem id with
      | none =>
          have hstate : applyOp s (.updateOp id patch now) = s := by
            simp [applyOp, updateDocument, hm]
          rw [hstate]
          exact ⟨hfm, hco, hrp⟩
      | some doc =>
          have hid : doc.id = id := hco id doc hm
          subst hid
          have hfile : (alLookup s.files doc.id).isSome = true := by
            rw [hfm doc.id, hm]; rfl
          have hstate : applyOp s (.updateOp doc.id patch now) =
              ⟨alInsert s.mem doc.id
                 { doc with data := mapsCopy doc.data patch, updatedAt := now },
               alInsert s.files doc.id
                 { doc with data := mapsCopy doc.data patch, updatedAt := now },
               s.wal ++ [WalEntry.update
                 { doc with data := mapsCopy doc.data patch, updatedAt := now }]⟩ := by
            simp [applyOp, updateDocument, hm, hfile]
          rw [hstate]
          refine ⟨?_, ?_, ?_⟩
          · intro id2
            simp [alLookup_alInsert, hfm id2]
          · intro id2 d2 h2
            rw [alLookup_alInsert] at h2
            by_cases hi : doc.id = id2
            · rw [if_pos hi] at h2
              injection h2 with h3
              rw [← h3]
              exact hi
            · rw [if_neg hi] at h2
              exact hco id2 d2 h2
          · exact replay_inv_upsert s.wal s.mem hrp
              { doc with data := mapsCopy doc.data patch, updatedAt := now }
              (WalEntry.update
                { doc with data := mapsCopy doc.data patch, updatedAt := now })
              rfl (fun m2 => rfl)
  | deleteOp id =>
      cases hm : alLookup s.mem id with
      | none =>
          have hstate : applyOp s (.deleteOp id) = s := by
            simp [applyOp, deleteDocument, hm]
          rw [hstate]
          exact ⟨hfm, hco, hrp⟩
      | some doc =>
          have hfile : (alLookup s.files id).isSome = true := by
            rw [hfm id, hm]; rfl
          have hstate : applyOp s (.deleteOp id) =
              ⟨alErase s.mem id, alErase s.files id,
               s.wal ++ [WalEntry.delete id]⟩ := by
            simp [applyOp, deleteDocument, hm, hfile]
          rw [hstate]
          refine ⟨?_, ?_, ?_⟩
          · intro id2
            simp [alLookup_alErase, hfm id2]
          · intro id2 d2 h2
            rw [alLookup_alErase] at h2
            by_cases hi : id = id2
            · rw [if_pos hi] at h2
              cases h2
            · rw [if_neg hi] at h2
              exact hco id2 d2 h2
          · exact replay_inv_erase s.wal s.mem hrp id

theorem dbInv_runOps (ops : List LocalOp) :
    ∀ s, DBInv s → DBInv (runOps ops s) := by
  induction ops with
  | nil => intro s h; exact h
  | cons op rest ih =>
      intro s h
      exact ih (applyOp s op) (dbInv_applyOp s op h)

theorem alInsert_of_lookup_none {β : Type} :
    ∀ (m : List (String × β)) (k : String) (v : β),
      alLookup m k = none → alInsert m k v = m ++ [(k, v)]
  | [], _, _, _ => rfl
  | (k2, v2) :: rest, k, v, h => by
      simp only [alLookup] at h
      by_cases h2 : k2 = k
      · rw [if_pos h2] at h
        cases h
      · rw [if_neg h2] at h
        simp [alInsert, h2, alInsert_of_lookup_none rest k v h]

theorem alLookup_append {β : Type} :
    ∀ (m1 m2 : List (String × β)) (k : String),
      alLookup (m1 ++ m2) k =
        (match alLookup m1 k with
         | some v => some v
         | none => alLookup m2 k)
  | [], _, _ => rfl
  | (k2, v2) :: rest, m2, k => by
      by_cases h2 : k2 = k <;> simp [alLookup, h2, alLookup_append rest m2 k]

/-! ## The claims -/

/-- C2: for every sequence of local Create/Update/Delete operations
(ops whose precondition fails are no-ops, matching the code), reopening
the database over the same `data_dir` — load all per-document files,
then replay every WAL entry in order — reconstructs exactly the
pre-restart in-memory id-to-document map. -/
theorem claim2_restart_reload_equals_prerestart (ops : List LocalOp)
    (id : String) :
    alLookup (loadAndReplay (runOps ops emptyDB)) id =
      alLookup (runOps ops emptyDB).mem id := by
  obtain ⟨hfm, _, hrp⟩ := dbInv_runOps ops emptyDB dbInv_empty
  unfold loadAndReplay
  rw [hrp (runOps ops emptyDB).files id]
  split
  · rfl
  · exact hfm id

/-- C6 (amended): when `SaveDocument` fails during Create, the freshly
built document stays visible in the in-memory map and the files and WAL
are untouched, but Create returns a nil document together with the error
(not the created document), and neither gossip nor event callbacks
fire. -/
theorem claim6_create_persist_failure_returns_nil (s : DBState)
    (newId collection : String) (data : Fields) (now : Int)
    (syncEnabled : Bool) (nCallbacks : Nat) :
    (createDocument s newId collection data now true false syncEnabled
        nCallbacks).1.doc? = none ∧
    (createDocument s newId collection data now true false syncEnabled
        nCallbacks).1.err? = some "error al persistir documento" ∧
    alLookup (createDocument s newId collection data now true false syncEnabled
        nCallbacks).2.1.mem newId = some ⟨newId, collection, data, now, now⟩ ∧
    (createDocument s newId collection data now true false syncEnabled
        nCallbacks).2.1.files = s.files ∧
    (createDocument s newId collection data now true false syncEnabled
        nCallbacks).2.1.wal = s.wal ∧
    (createDocument s newId collection data now true false syncEnabled
        nCallbacks).2.2 = noEffects := by
  refine ⟨?_, ?_, ?_, ?_, ?_, ?_⟩ <;>
    simp [createDocument, alLookup_alInsert, noEffects]

/-- C6 counterexample: at a concrete failing-persistence Create, the
returned document is `none` — not the created document alongside the
error, as the claim states — although the insert is visible in memory. -/
theorem claim6_cx_returns_none_not_doc :
    (createDocument emptyDB "u1" "users" dataEmail 10 true false false 0).1.doc?
      = none ∧
    (createDocument emptyDB "u1" "users" dataEmail 10 true false false
        0).1.err?.isSome = true ∧
    alLookup (createDocument emptyDB "u1" "users" dataEmail 10 true false false
        0).2.1.mem "u1" = some ⟨"u1", "users", dataEmail, 10, 10⟩ :=
  ⟨rfl, rfl, rfl⟩

/-- C7 (amended): when a condition's field path does not resolve,
`exists:false` is true and `exists:true` is false, and every other
operator — including `nin` — evaluates to false. -/
theorem claim7_absent_field_semantics (rx : String → String → Bool)
    (data : Fields) (c : QueryCondition)
    (habs : getNestedFieldValue data c.field = none) :
    (∀ b : Bool, c.operator = .OperatorEXISTS → c.value = .vbool b →
        matchesQueryCondition rx data c = some (b == false)) ∧
    (c.operator ≠ .OperatorEXISTS →
        matchesQueryCondition rx data c = some false) := by
  constructor
  · intro b hop hval
    simp [matchesQueryCondition, habs, hop, hval]
  · intro hop
    simp [matchesQueryCondition, habs, hop]

/-- C7 counterexample: on the empty document, `nin` over an absent field
evaluates to `false`, not `true` as the claim states. -/
theorem claim7_cx_nin_absent_false :
    cond7.operator = .OperatorNIN ∧
    getNestedFieldValue Fields.nil cond7.field = none ∧
    matchesQueryCondition rx0 Fields.nil cond7 = some false :=
  ⟨rfl, rfl, rfl⟩

/-- C7 witness: the amended theorem applied at the `nin`-on-absent-field
input. -/
theorem claim7_w :
    matchesQueryCondition rx0 Fields.nil cond7 = some false :=
  (claim7_absent_field_semantics rx0 Fields.nil cond7 rfl).2 (by decide)

/-- C10: evaluating a query condition is total as long as every `exists`
condition carries a boolean value, and the unchecked assertion
`condition.Value.(bool)` panics (modelled as `none`) on an `exists`
condition whose value is a string, evaluated against the empty
document. -/
theorem claim10_exists_assertion_panic :
    (∀ (rx : String → String → Bool) (data : Fields) (c : QueryCondition),
        (c.operator = .OperatorEXISTS → ∃ b, c.value = .vbool b) →
        (matchesQueryCondition rx data c).isSome = true) ∧
    matchesQueryCondition rx0 Fields.nil cond10 = none := by
  constructor
  · intro rx data c h
    cases hf : getNestedFieldValue data c.field with
    | none =>
        by_cases hop : c.operator = .OperatorEXISTS
        · obtain ⟨b, hb⟩ := h hop
          simp [matchesQueryCondition, hf, hop, hb]
        · simp [matchesQueryCondition, hf, hop]
    | some fv =>
        by_cases hop : c.operator = .OperatorEXISTS
        · obtain ⟨b, hb⟩ := h hop
          simp [matchesQueryCondition, hf, hop, hb]
        · simp [matchesQueryCondition, hf, hop]
  · rfl

/-- C10 witness: the totality half applied at a well-formed `exists`
condition. -/
theorem claim10_w :
    (matchesQueryCondition rx0 Fields.nil condW10).isSome = true :=
  claim10_exists_assertion_panic.1 rx0 Fields.nil condW10 (fun _ => ⟨true, rfl⟩)

/-- C8 (amended): `sortDocuments` orders the result by the first sort
key, but the in-place exchange sort is not stable: for ascending keys
`[2, 2, 1]`, the two equal-key documents come out in reversed insertion
order. -/
theorem claim8_sort_unstable :
    (sortDocuments [sOpt8] [dA8, dB8, dC8]).map Document.id = ["c", "b", "a"] ∧
    (sortDocuments [sOpt8] [dA8, dB8, dC8]).map (fun d => lookupF d.data "k")
      = [some (.vint 1), some (.vint 2), some (.vint 2)] ∧
    [dA8, dB8, dC8].map (fun d => lookupF d.data "k")
      = [some (.vint 2), some (.vint 2), some (.vint 1)] :=
  ⟨rfl, rfl, rfl⟩

/-- C8 counterexample: documents `a` and `b` carry equal sort keys and
are inserted in the order `a`, `b`, yet the sorted output is
`[c, b, a]` — the equal-key pair is reordered, where stability demands
`[c, a, b]`. -/
theorem claim8_cx_equal_keys_reordered :
    compareValues (Value.vint 2) (Value.vint 2) = 0 ∧
    lookupF dA8.data sOpt8.field = some (.vint 2) ∧
    lookupF dB8.data sOpt8.field = some (.vint 2) ∧
    (sortDocuments [sOpt8] [dA8, dB8, dC8]).map Document.id = ["c", "b", "a"] ∧
    (["c", "b", "a"] : List String) ≠ ["c", "a", "b"] :=
  ⟨rfl, rfl, rfl, rfl, by decide⟩

/-- C1 (amended): only the periodic-sync response path compares
`updated_at` — an incoming document strictly newer than the local one is
applied through `Database.UpdateDocument` (a shallow merge of its data,
with `updated_at` set to the local clock), and an incoming document with
`updated_at` less than or equal to the local one is discarded with both
conflict counters bumped, leaving the local document unchanged — whereas
the gossip inbound path stores the incoming document unconditionally,
with no timestamp comparison. -/
theorem claim1_lww_only_in_sync_response :
    (∀ (s : DBState) (pe : Bool) (n : Nat) (doc : Document),
        alLookup (listenStep s pe n ⟨.OperationUpdate, some doc, ""⟩).1.mem doc.id
          = some doc ∧
        alLookup (listenStep s pe n ⟨.OperationCreate, some doc, ""⟩).1.mem doc.id
          = some doc) ∧
    (∀ (st : SMState) (doc : Document) (now : Int) (newId : String)
        (existing : Document),
        alLookup st.db.mem doc.id = some existing →
        ((existing.updatedAt < doc.updatedAt →
            (∃ doc2,
              alLookup (handleSyncDoc st doc now newId).db.mem doc.id = some doc2 ∧
              doc2.id = existing.id ∧ doc2.collection = existing.collection ∧
              doc2.createdAt = existing.createdAt ∧ doc2.updatedAt = now ∧
              doc2.data = mapsCopy existing.data doc.data) ∧
            (handleSyncDoc st doc now newId).stats = st.stats) ∧
         (doc.updatedAt ≤ existing.updatedAt →
            (handleSyncDoc st doc now newId).db = st.db ∧
            (handleSyncDoc st doc now newId).stats.conflictsDetected
              = st.stats.conflictsDetected + 1 ∧
            (handleSyncDoc st doc now newId).stats.conflictsResolved
              = st.stats.conflictsResolved + 1))) := by
  constructor
  · intro s pe n doc
    constructor
    · have hmem : (listenStep s pe n ⟨.OperationUpdate, some doc, ""⟩).1.mem
          = alInsert s.mem doc.id doc := by
        simp only [listenStep]
        split <;> rfl
      rw [hmem, alLookup_alInsert]
      simp
    · have hmem : (listenStep s pe n ⟨.OperationCreate, some doc, ""⟩).1.mem
          = alInsert s.mem doc.id doc := by
        simp only [listenStep]
        split <;> rfl
      rw [hmem, alLookup_alInsert]
      simp
  · intro st doc now newId existing hm
    constructor
    · intro hlt
      have hgt : doc.updatedAt > existing.updatedAt := hlt
      constructor
      · refine ⟨({ existing with data := mapsCopy existing.data doc.data, updatedAt := now } : Document), ?_, rfl, rfl, rfl, rfl, rfl⟩
        have hdb : (handleSyncDoc st doc now newId).db
            = (updateDocument st.db doc.id doc.data now true true true 0).2.1 := by
          simp [handleSyncDoc, hm, hgt]
        rw [hdb]
        have hmem : (updateDocument st.db doc.id doc.data now true true true
              0).2.1.mem
            = alInsert st.db.mem doc.id
                ({ existing with data := mapsCopy existing.data doc.data, updatedAt := now } : Document) := by
          simp only [updateDocument, hm]
          split <;> first | rfl | (split <;> rfl)
        rw [hmem, alLookup_alInsert]
        simp
      · simp [handleSyncDoc, hm, hgt]
    · intro hle
      have hngt : ¬ doc.updatedAt > existing.updatedAt := not_lt.mpr hle
      refine ⟨?_, ?_, ?_⟩ <;> simp [handleSyncDoc, hm, hngt]

/-- C1 counterexample: the gossip inbound path receives an update whose
`updated_at` (5) is below the local document's (10) and nevertheless
replaces the local document with it, where the claim requires the
incoming document to be discarded and the local one kept. -/
theorem claim1_cx_gossip_overwrites_older :
    incomingDoc1.updatedAt = 5 ∧ localDoc1.updatedAt = 10 ∧
    alLookup s1.mem "a" = some localDoc1 ∧
    alLookup (listenStep s1 true 1 msg1).1.mem "a" = some incomingDoc1 ∧
    (alLookup (listenStep s1 true 1 msg1).1.mem "a").map Document.updatedAt
      = some 5 :=
  ⟨rfl, rfl, rfl, rfl, rfl⟩

/-- C1 witness: the sync-response half applied at a concrete
older-than-local incoming document (the discard-and-count branch). -/
theorem claim1_w :
    (handleSyncDoc sm1 incomingDoc1 50 "nid").db = sm1.db ∧
    (handleSyncDoc sm1 incomingDoc1 50 "nid").stats.conflictsDetected
      = sm1.stats.conflictsDetected + 1 ∧
    (handleSyncDoc sm1 incomingDoc1 50 "nid").stats.conflictsResolved
      = sm1.stats.conflictsResolved + 1 :=
  (claim1_lww_only_in_sync_response.2 sm1 incomingDoc1 50 "nid" localDoc1
    rfl).2 (by decide)

/-- C4 (amended): a remote mutation applied via gossip publishes nothing
on the gossip topic and invokes no registered event callback — unlike a
successful local create, which publishes once (when sync is enabled) and
delivers one event per registered callback — so WebSocket subscribers
are not notified of remote writes. -/
theorem claim4_remote_apply_no_republish_no_callbacks :
    (∀ (s : DBState) (pe : Bool) (n : Nat) (msg : DBMessage),
        (listenStep s pe n msg).2.published = [] ∧
        (listenStep s pe n msg).2.events = []) ∧
    (∀ (s : DBState) (newId coll : String) (data : Fields) (now : Int)
        (n : Nat),
        (createDocument s newId coll data now true true true n).2.2.events.length
          = n ∧
        (createDocument s newId coll data now true true true n).2.2.published
          = [⟨.OperationCreate, some ⟨newId, coll, data, now, now⟩, ""⟩]) := by
  constructor
  · intro s pe n msg
    obtain ⟨op, doc?, did⟩ := msg
    have heff : (listenStep s pe n ⟨op, doc?, did⟩).2 = noEffects := by
      cases op <;> cases doc? <;> simp only [listenStep] <;>
        (repeat' split) <;> rfl
    rw [heff]
    exact ⟨rfl, rfl⟩
  · intro s newId coll data now n
    constructor
    · simp [createDocument, triggerEvent]
    · simp [createDocument]

/-- C4 counterexample: a node with one registered event callback applies
a remote create; the document lands in the map, but zero events are
delivered where the claim requires one per registered callback. -/
theorem claim4_cx_no_callback_on_remote :
    (listenStep emptyDB true 1 ⟨.OperationCreate, some incomingDoc1, ""⟩).2.events.length
      = 0 ∧
    (0 : Nat) ≠ 1 ∧
    (listenStep emptyDB true 1 ⟨.OperationCreate, some incomingDoc1, ""⟩).2.published
      = [] ∧
    alLookup (listenStep emptyDB true 1
        ⟨.OperationCreate, some incomingDoc1, ""⟩).1.mem "a" = some incomingDoc1 :=
  ⟨rfl, by decide, rfl, rfl⟩

/-- C5: Update on an existing id merges the patch shallowly (patch keys
overwrite, other keys — with whatever nests below them — survive), sets
`updated_at` to the clock and keeps id, collection and `created_at`;
on an unknown id it fails with NotFound and changes nothing. -/
theorem claim5_update_shallow_merge (s : DBState) (id : String)
    (patch : Fields) (now : Int) (doc : Document)
    (hmem : alLookup s.mem id = some doc)
    (hfile : (alLookup s.files id).isSome = true)
    (hkeys : (keysF patch).Nodup) :
    (∃ doc2,
       (updateDocument s id patch now true true false 0).1.doc? = some doc2 ∧
       alLookup (updateDocument s id patch now true true false 0).2.1.mem id
         = some doc2 ∧
       doc2.id = doc.id ∧ doc2.collection = doc.collection ∧
       doc2.createdAt = doc.createdAt ∧ doc2.updatedAt = now ∧
       ∀ k, lookupF doc2.data k =
         Option.orElse (lookupF patch k) (fun _ => lookupF doc.data k)) ∧
    (∀ id2, alLookup s.mem id2 = none →
       updateDocument s id2 patch now true true false 0 =
         (⟨none, some "documento no encontrado"⟩, s, noEffects)) := by
  constructor
  · refine ⟨{ doc with data := mapsCopy doc.data patch, updatedAt := now },
      ?_, ?_, rfl, rfl, rfl, rfl, ?_⟩
    · simp [updateDocument, hmem, hfile]
    · simp [updateDocument, hmem, hfile, alLookup_alInsert]
    · intro k
      exact lookupF_mapsCopy patch hkeys doc.data k
  · intro id2 h2
    simp [updateDocument, h2]

/-- C5 witness: the merge half applied at a concrete document and patch. -/
theorem claim5_w :
    alLookup sAna.mem "a" = some docAna ∧
    (alLookup sAna.files "a").isSome = true ∧
    (keysF patchAna).Nodup ∧
    (∃ doc2,
       (updateDocument sAna "a" patchAna 50 true true false 0).1.doc?
         = some doc2 ∧
       alLookup (updateDocument sAna "a" patchAna 50 true true false 0).2.1.mem
         "a" = some doc2 ∧
       doc2.id = docAna.id ∧ doc2.collection = docAna.collection ∧
       doc2.createdAt = docAna.createdAt ∧ doc2.updatedAt = 50 ∧
       ∀ k, lookupF doc2.data k =
         Option.orElse (lookupF patchAna k) (fun _ => lookupF docAna.data k)) :=
  ⟨rfl, rfl, by decide,
   (claim5_update_shallow_merge sAna "a" patchAna 50 docAna rfl rfl
     (by decide)).1⟩

/-- C3 (amended): the unique-index check lives only in
`Index.AddDocument`, which rejects a second document whose computed key
already carries an id; `Database.CreateDocument` never consults the
index manager, so both same-email inserts succeed and `GetAll` returns
both documents — no Conflict error reaches the caller on insert. -/
theorem claim3_unique_index_not_enforced_on_create :
    (∀ (s : DBState) (id1 id2 coll : String) (d1 d2 : Fields) (t1 t2 : Int),
        alLookup s.mem id1 = none → alLookup s.mem id2 = none → id1 ≠ id2 →
        (createDocument s id1 coll d1 t1 true true false 0).1.err? = none ∧
        (createDocument (createDocument s id1 coll d1 t1 true true false
            0).2.1 id2 coll d2 t2 true true false 0).1.err? = none ∧
        (getAllDocuments (createDocument (createDocument s id1 coll d1 t1 true
            true false 0).2.1 id2 coll d2 t2 true true false 0).2.1 coll).length
          = (getAllDocuments s coll).length + 2) ∧
    (∀ (idx : Index) (doc : Document) (v : String) (now : Int),
        idx.unique = true → getIndexValue idx doc = some v →
        0 < ((alLookup idx.data v).getD []).length →
        Index.addDocument idx doc now =
          .error ("violación de índice único: " ++ v)) := by
  constructor
  · intro s id1 id2 coll d1 d2 t1 t2 h1 h2 hne
    have hm1 : (createDocument s id1 coll d1 t1 true true false 0).2.1.mem
        = s.mem ++ [(id1, ⟨id1, coll, d1, t1, t1⟩)] := by
      simp [createDocument, alInsert_of_lookup_none s.mem id1 _ h1]
    have hl2 : alLookup (alInsert s.mem id1 ⟨id1, coll, d1, t1, t1⟩) id2
        = none := by
      rw [alLookup_alInsert]
      simp [hne, h2]
    have hm2 : (createDocument (createDocument s id1 coll d1 t1 true true false
          0).2.1 id2 coll d2 t2 true true false 0).2.1.mem
        = s.mem ++ [(id1, ⟨id1, coll, d1, t1, t1⟩),
                    (id2, ⟨id2, coll, d2, t2, t2⟩)] := by
      simp only [createDocument]
      norm_num
      rw [alInsert_of_lookup_none _ id2 _ hl2,
        alInsert_of_lookup_none s.mem id1 _ h1]
      simp
    refine ⟨by simp [createDocument], by simp [createDocument], ?_⟩
    simp [getAllDocuments, hm2, List.filter_append]
  · intro idx doc v now hu hv hlen
    simp only [Index.addDocument, hv]
    rw [if_pos ⟨hu, hlen⟩]

/-- C3 counterexample: with the unique index on `users.email` standing
(it is never wired into document creation), a second insert with the
same email succeeds with no error, and `GetAll("users")` returns two
documents, not only the first. -/
theorem claim3_cx_second_insert_succeeds :
    lookupF dataEmail "email" = some (.vstr "a@x") ∧
    (createDocument emptyDB "u1" "users" dataEmail 1 true true false 0).1.err?
      = none ∧
    (createDocument (createDocument emptyDB "u1" "users" dataEmail 1 true true
        false 0).2.1 "u2" "users" dataEmail 2 true true false 0).1.err?
      = none ∧
    (getAllDocuments (createDocument (createDocument emptyDB "u1" "users"
        dataEmail 1 true true false 0).2.1 "u2" "users" dataEmail 2 true true
        false 0).2.1 "users").length = 2 :=
  ⟨rfl, rfl, rfl, rfl⟩

/-- C3 witness: both halves applied concretely — two fresh-id creates
from the empty store succeed and double the collection, and the unique
index with `a@x` already indexed rejects the second user. -/
theorem claim3_w :
    ((createDocument emptyDB "u1" "users" dataEmail 1 true true false 0).1.err?
        = none ∧
      (createDocument (createDocument emptyDB "u1" "users" dataEmail 1 true
          true false 0).2.1 "u2" "users" dataEmail 2 true true false 0).1.err?
        = none ∧
      (getAllDocuments (createDocument (createDocument emptyDB "u1" "users"
          dataEmail 1 true true false 0).2.1 "u2" "users" dataEmail 2 true true
          false 0).2.1 "users").length
        = (getAllDocuments emptyDB "users").length + 2) ∧
    idxEmail.unique = true ∧
    getIndexValue idxEmail docU2 = some "a@x" ∧
    Index.addDocument idxEmail docU2 7 =
      .error ("violación de índice único: " ++ "a@x") :=
  ⟨claim3_unique_index_not_enforced_on_create.1 emptyDB "u1" "u2" "users"
      dataEmail dataEmail 1 2 rfl rfl (by decide),
   rfl, rfl,
   claim3_unique_index_not_enforced_on_create.2 idxEmail docU2 "a@x" 7 rfl rfl
     (by decide)⟩

theorem drop_stage_in_range (skip : Int) (l : List Document) (h0 : 0 ≤ skip)
    (hlt : skip < (l.length : Int)) :
    (if skip > 0 ∧ skip < (l.length : Int) then l.drop skip.toNat else l)
      = l.drop skip.toNat := by
  by_cases hs : skip > 0
  · rw [if_pos ⟨hs, hlt⟩]
  · have hz : skip = 0 := le_antisymm (not_lt.mp hs) h0
    subst hz
    rw [if_neg (fun hc => hs hc.1)]
    simp

theorem take_stage_positive (limit : Int) (r1 : List Document)
    (hl : 0 < limit) :
    (if limit > 0 ∧ limit < (r1.length : Int) then r1.take limit.toNat else r1)
      = r1.take limit.toNat := by
  by_cases h2 : limit < (r1.length : Int)
  · rw [if_pos ⟨hl, h2⟩]
  · rw [if_neg (fun hc => h2 hc.2)]
    refine (List.take_of_length_le ?_).symm
    have := not_lt.mp h2
    omega

/-- C9 (amended): after filtering and sorting, skip then limit are
applied last, with these deviations from plain drop/take semantics:
`skip` drops the first elements only while `0 ≤ skip < length` (when
`skip ≥ length` the whole list is kept, not emptied), and `limit`
truncates only when positive (a non-positive limit keeps everything). -/
theorem claim9_pagination_semantics :
    (∀ (skip limit : Int) (l : List Document),
        0 ≤ skip → skip < (l.length : Int) → 0 < limit →
        paginate skip limit l = (l.drop skip.toNat).take limit.toNat) ∧
    (∀ (skip limit : Int) (l : List Document),
        (l.length : Int) ≤ skip →
        paginate skip limit l =
          (if 0 < limit ∧ limit < (l.length : Int) then l.take limit.toNat
           else l)) ∧
    (∀ (skip limit : Int) (l : List Document),
        limit ≤ 0 →
        paginate skip limit l =
          (if 0 < skip ∧ skip < (l.length : Int) then l.drop skip.toNat
           else l)) ∧
    (∀ (rx : String → String → Bool) (q : Query) (docs res : List Document),
        filterDocs rx q.condition docs = some res →
        executeQuery rx q docs =
          some (paginate q.options.skip q.options.limit
            (if q.options.sort.length > 0 then sortDocuments q.options.sort res
             else res))) := by
  refine ⟨?_, ?_, ?_, ?_⟩
  · intro skip limit l h0 hlt hl
    simp only [paginate]
    rw [drop_stage_in_range skip l h0 hlt]
    exact take_stage_positive limit (l.drop skip.toNat) hl
  · intro skip limit l hge
    have hskip : (if skip > 0 ∧ skip < (l.length : Int) then l.drop skip.toNat
        else l) = l := if_neg (fun hc => absurd hc.2 (not_lt.mpr hge))
    simp only [paginate, hskip]
  · intro skip limit l hle
    simp only [paginate]
    rw [if_neg (fun hc => absurd hc.1 (not_lt.mpr hle))]
  · intro rx q docs res h
    simp [executeQuery, h]

/-- C9 counterexample: `skip = 5` against three matching documents —
drop-then-take semantics predict the empty result, but `Execute` returns
all three documents because the skip branch requires
`skip < len(results)`. -/
theorem claim9_cx_skip_beyond_length :
    q9.options.skip = 5 ∧ q9.options.limit = 10 ∧
    executeQuery rx0 q9 [dA8, dB8, dC8] = some [dA8, dB8, dC8] ∧
    ([dA8, dB8, dC8].drop 5).take 10 = ([] : List Document) ∧
    (executeQuery rx0 q9 [dA8, dB8, dC8]).map List.length = some 3 :=
  ⟨rfl, rfl, rfl, rfl, rfl⟩

/-- C9 witness: the in-range drop/take half applied at a concrete list. -/
theorem claim9_w :
    (0 : Int) ≤ 1 ∧ (1 : Int) < (([dA8, dB8] : List Document).length : Int) ∧
    (0 : Int) < 1 ∧
    paginate 1 1 [dA8, dB8] = ([dA8, dB8].drop (1 : Int).toNat).take
      (1 : Int).toNat :=
  ⟨by decide, by decide, by decide,
   claim9_pagination_semantics.1 1 1 [dA8, dB8] (by decide) (by decide)
     (by decide)⟩

end DBP2P
